import Mathlib

/-!
Shallow embedding of `pyidi/methods/video_reader.py` (class `VideoReader`)
and proofs about its specification.

Modelling conventions:
* Python `int` is `Int`, Python `float` is modelled by exact rationals
  (`Rat`); the float values appearing in the source (`0.2989`, `0.5870`,
  `0.1140`) are modelled by the corresponding decimal rationals, which
  agrees with the float64 computation on all inputs used in the theorems
  (the computed values stay far from integer boundaries there).
* Python dictionaries are association lists with most-recent-binding
  first, so that assignment is `cons` and lookup returns the most recent
  value, matching Python's overwrite semantics.
* Exceptions are an explicit error type `PyError`; each constructor is
  annotated with the Python exception it models.
* File contents are passed in as a `String`; `strReadlines` models
  Python's `readlines` / line iteration (each line keeps its trailing
  newline, a last line without newline is kept as is).
* The external decoders (`imageio.v3.imread`, `pyMRAW.load_video`,
  `xmltodict.parse`) are oracles passed as arguments; theorems that need
  a property of an oracle state it as a hypothesis reflecting the
  collaborator's documented contract.
-/

deriving instance DecidableEq for Except

namespace VideoReaderModel

/-- Python exceptions raised by the code paths of `video_reader.py`.
Constructors are named after the error taxonomy of the specification;
comments give the concrete Python exception they model. -/
inductive PyError where
  /-- `ValueError('Frame number exceeds total frame number!')` -/
  | frameIndexOutOfRange
  /-- `ValueError('Unsupported file format!')` -/
  | unsupportedFormat
  /-- `ValueError('Missing mandatory keys in cih file!')` -/
  | missingMetadataField
  /-- `Exception('Unsupported configuration file ({:s})!')` -/
  | unsupportedConfig (ext : String)
  /-- `ExpatError` raised by `xmltodict.parse` on ill-formed XML -/
  | malformedHeader
  /-- Python `KeyError` (missing dictionary key) -/
  | keyError
  /-- Python `ValueError` from a failed `int()` / `float()` conversion,
  or from a shape mismatch inside `np.dot` -/
  | valueError
  /-- Python `TypeError` (e.g. ordering comparison of `int` and `str`) -/
  | typeError
  /-- Python `AttributeError` (e.g. `.lower()` on a non-string,
  or `self.mraw` unset) -/
  | attributeError
  /-- Python `IndexError` (list index out of range) -/
  | indexError
  deriving DecidableEq, Repr

/-- A value stored in the parsed CIH dictionary: Python `int`, `float`
(modelled by `Rat`) or `str`. -/
inductive CihValue where
  | int (n : Int)
  | float (q : Rat)
  | str (s : String)
  deriving DecidableEq, Repr

/-- Python dict with `String` keys: association list, newest binding
first. -/
abbrev Dict := List (String × CihValue)

/-- Python dict assignment `d[k] = v` (newest binding shadows older
ones under `dictLookup`). -/
def dictSet (d : Dict) (k : String) (v : CihValue) : Dict := (k, v) :: d

/-- Python dict lookup `d[k]`, returning the most recent binding. -/
def dictLookup (d : Dict) (k : String) : Option CihValue :=
  match d with
  | [] => none
  | (k', v) :: rest => if k' = k then some v else dictLookup rest k

/-- Python membership test `k in d.keys()`. -/
def dictMem (d : Dict) (k : String) : Bool :=
  d.any (fun kv => kv.1 == k)

/-! ### Python string and number helpers -/

/-- Strip leading and trailing whitespace (Python `int`/`float` accept
surrounded whitespace). -/
def pyStripChars (cs : List Char) : List Char :=
  ((cs.dropWhile Char.isWhitespace).reverse.dropWhile Char.isWhitespace).reverse

/-- Decimal value of a digit list (`'0'..'9'`). -/
def digitsToNat (cs : List Char) : Nat :=
  cs.foldl (fun a c => a * 10 + (c.toNat - 48)) 0

/-- Nonempty and all decimal digits. -/
def allDigits (cs : List Char) : Bool :=
  !cs.isEmpty && cs.all Char.isDigit

/-- Sign handling shared by the numeric parsers: returns the sign
(`true` for negative) and the remaining characters. -/
def splitSign : List Char → Bool × List Char
  | '-' :: rest => (true, rest)
  | '+' :: rest => (false, rest)
  | cs => (false, cs)

/-- Models Python `int(s)` on strings: optional sign followed by decimal
digits (surrounding whitespace stripped); `none` models the
`ValueError`.  Exotic accepted forms (underscore separators, non-ASCII
digits) are not modelled; no input in this development uses them. -/
def pythonInt (s : String) : Option Int :=
  let (neg, cs) := splitSign (pyStripChars s.toList)
  if allDigits cs then
    some (if neg then -(digitsToNat cs : Int) else (digitsToNat cs : Int))
  else none

/-- Split a character list at the first `'.'`: the part before it and,
when a dot is present, the part after it. -/
def splitDot : List Char → List Char × Option (List Char)
  | [] => ([], none)
  | c :: rest =>
    if c = '.' then ([], some rest)
    else (c :: (splitDot rest).1, (splitDot rest).2)

/-- Models Python `float(s)` on decimal strings: optional sign, digits
with at most one dot, at least one digit overall (`"1."` and `".5"`
accepted, `"."` rejected); `none` models the `ValueError`.  Exponent
and `inf`/`nan` forms are not modelled; no input in this development
uses them.  The value `ip.fp` is the exact rational
`(ip * 10^|fp| + fp) / 10^|fp|`, built with `mkRat`. -/
def pythonFloat (s : String) : Option Rat :=
  let (neg, cs) := splitSign (pyStripChars s.toList)
  match splitDot cs with
  | (intPart, none) =>
    if allDigits intPart then
      some (mkRat (if neg then -(digitsToNat intPart : Int) else (digitsToNat intPart : Int)) 1)
    else none
  | (intPart, some fracPart) =>
    if (intPart.all Char.isDigit && fracPart.all Char.isDigit
        && !(intPart.isEmpty && fracPart.isEmpty)
        && !fracPart.contains '.') then
      let m : Int := digitsToNat intPart * 10 ^ fracPart.length + digitsToNat fracPart
      some (mkRat (if neg then -m else m) (10 ^ fracPart.length))
    else none

/-- `line.replace('\n', '')`: removes every newline character. -/
def stripNewline (s : String) : String :=
  ⟨s.toList.filter (fun c => c ≠ '\n')⟩

/-- `pat` is a prefix of `s` (character lists). -/
def startsWith : List Char → List Char → Bool
  | [], _ => true
  | _ :: _, [] => false
  | a :: as, b :: bs => a == b && startsWith as bs

/-- Fueled core of Python `str.split(sep)` for a non-empty separator:
scan left to right, cut at every non-overlapping occurrence of `sep`.
The fuel bounds the number of steps; it is instantiated with the input
length, which suffices since every step consumes at least one
character. -/
def pySplitAux (sep : List Char) : Nat → List Char → List Char → List (List Char)
  | 0, cs, acc => [acc.reverse ++ cs]
  | _ + 1, [], acc => [acc.reverse]
  | fuel + 1, c :: rest, acc =>
    if startsWith sep (c :: rest) then
      acc.reverse :: pySplitAux sep fuel ((c :: rest).drop sep.length) []
    else
      pySplitAux sep fuel rest (c :: acc)

/-- Python `s.split(sep)` for a non-empty separator (`''.split(sep)`
is `['']`; an empty separator raises in Python and is unreachable
here). -/
def pySplit (s sep : String) : List String :=
  (pySplitAux sep.toList s.toList.length s.toList []).map (fun cs => ⟨cs⟩)

/-- ASCII `str.lower()`. -/
def pyStrLower (s : String) : String :=
  ⟨s.toList.map Char.toLower⟩

/-- `.lower()` as the code applies it to a dictionary value: succeeds
on `str`, raises `AttributeError` on `int`/`float`. -/
def pyLowerE : CihValue → Except PyError String
  | .str s => .ok (pyStrLower s)
  | _ => .error .attributeError

/-! ### The `.cih` text-header parser (source lines 182-199) -/

/-- Value coercion of the `.cih` text parser:
`float(value)` when the raw string contains `'.'`, else `int(value)`,
falling back to the raw string when the conversion raises. -/
def coerceValue (v : String) : CihValue :=
  if v.toList.contains '.' then
    match pythonFloat v with
    | some q => .float q
    | none => .str v
  else
    match pythonInt v with
    | some n => .int n
    | none => .str v

/-- The line loop of the `.cih` branch of `_get_cih`: iterate over the
lines, break at the first line equal to `"\n"`, record every line that
splits into exactly two parts on `" : "`. -/
def parseCihAux : List String → Dict → Dict
  | [], d => d
  | line :: rest, d =>
    if line = "\n" then d
    else
      match pySplit (stripNewline line) " : " with
      | [key, value] => parseCihAux rest (dictSet d key (coerceValue value))
      | _ => parseCihAux rest d

/-- `.cih` text-header parser (dictionary built by `_get_cih` for a
`.cih` file, from its lines). -/
def parseCih (lines : List String) : Dict := parseCihAux lines []

/-! ### Reading a file into lines (Python `readlines`) -/

/-- Helper of `charLines`: accumulate the current line (reversed). -/
def charLinesAux : List Char → List Char → List (List Char)
  | [], acc => if acc.isEmpty then [] else [acc.reverse]
  | c :: rest, acc =>
    if c = '\n' then (c :: acc).reverse :: charLinesAux rest []
    else charLinesAux rest (c :: acc)

/-- Split a character list into lines, each keeping its trailing
newline; a final line without newline is kept as is. -/
def charLines (cs : List Char) : List (List Char) := charLinesAux cs []

/-- Python `f.readlines()` / `for line in f` on the file content. -/
def strReadlines (content : String) : List String :=
  (charLines content.toList).map (fun cs => ⟨cs⟩)

/-! ### Path helpers (`os.path.split`, `os.path.splitext`, `os.path.join`) -/

/-- `os.path.split`: split at the last `'/'`; the head keeps no
trailing separator (POSIX behaviour for simple paths: the dirname is
everything before the last slash). -/
def osPathSplit (p : String) : String × String :=
  let cs := p.toList
  let revTail := cs.reverse.takeWhile (fun c => c ≠ '/')
  let base := revTail.reverse
  let head := cs.take (cs.length - revTail.length - (if revTail.length = cs.length then 0 else 1))
  (⟨head⟩, ⟨base⟩)

/-- Index (from the front) of the last `'.'` in a character list. -/
def lastDotIdx (cs : List Char) : Option Nat :=
  (cs.reverse.findIdx? (fun c => c = '.')).map (fun i => cs.length - 1 - i)

/-- `os.path.splitext` on a basename: splits at the last dot provided a
non-dot character precedes it (so `.cshrc` has no extension). -/
def splitextBase (b : List Char) : List Char × List Char :=
  match lastDotIdx b with
  | none => (b, [])
  | some i =>
    if (b.take i).any (fun c => c ≠ '.') then (b.take i, b.drop i)
    else (b, [])

/-- `os.path.splitext` on a full path: the extension is taken in the
final path component. -/
def splitext (p : String) : String × String :=
  let (head, base) := osPathSplit p
  let (stem, ext) := splitextBase base.toList
  (head ++ (⟨stem⟩ : String), ⟨ext⟩)

/-- `os.path.join(root, name)` for the shapes used here: empty root
gives `name`, a root ending in `'/'` is used as is, otherwise a `'/'`
is inserted. -/
def osPathJoin (root name : String) : String :=
  if root = "" then name
  else if root.toList.getLast? = some '/' then root ++ name
  else root ++ "/" ++ name

/-! ### Substring search (Python `in` on strings) -/

/-- `pat in s` for character lists: `pat` occurs contiguously in `s`. -/
def hasSub (pat : List Char) : List Char → Bool
  | [] => pat.isEmpty
  | c :: rest => startsWith pat (c :: rest) || hasSub pat rest

/-- Python `pat in s` on strings. -/
def strHasSub (s pat : String) : Bool := hasSub pat.toList s.toList

/-! ### The `.cihx` branch of `_get_cih` (source lines 201-222) -/

/-- Index of the first line satisfying `p`
(`[i for i in range(len(lines)) if p(lines[i])][0]`). -/
def findFirstIdx (p : String → Bool) : List String → Option Nat
  | [] => none
  | l :: rest =>
    if p l then some 0 else (findFirstIdx p rest).map (fun i => i + 1)

/-- Index of the last line satisfying `p`
(`[i for i in range(len(lines)) if p(lines[i])][-1]`). -/
def findLastIdx (p : String → Bool) (ls : List String) : Option Nat :=
  (findFirstIdx p ls.reverse).map (fun i => ls.length - 1 - i)

/-- A line contributing to `first_last_line`: it contains the opening
or the closing root tag. -/
def lineEitherTag (l : String) : Bool :=
  strHasSub l "<cih>" || strHasSub l "</cih>"

/-- Join of `lines[a : b+1]` (`''.join(lines[first:last+1])`). -/
def joinSlice (lines : List String) (a b : Nat) : String :=
  String.join ((lines.drop a).take (b + 1 - a))

/-- Span extraction of the `.cihx` branch:
`''.join(lines[first_last_line[0] : first_last_line[-1]+1])`;
`none` models the `IndexError` when no line contains either tag. -/
def extractSpan (lines : List String) : Option String :=
  match findFirstIdx lineEitherTag lines, findLastIdx lineEitherTag lines with
  | some a, some b => some (joinSlice lines a b)
  | _, _ => none

/-- The leaves of the parsed `.cihx` document that the code reads, as
raw strings (`xmltodict` yields strings at leaves); `none` means the
XML path is absent (a lookup raises `KeyError`).  `basicInfo` is
two-level because the code calls `.get('comment', '')` on the
`basicInfo` element: the outer `none` models a missing `basicInfo`
(a `KeyError`), the inner `none` a missing `comment` (defaulted). -/
structure CihxDoc where
  date : Option String
  deviceName : Option String
  recordRate : Option String
  shutterSpeed : Option String
  totalFrame : Option String
  recordedFrame : Option String
  width : Option String
  height : Option String
  fileFormat : Option String
  effBitDepth : Option String
  effBitSide : Option String
  colorBit : Option String
  basicInfo : Option (Option String)
  deriving DecidableEq, Repr

/-- Dictionary lookup on the parsed XML (`raw_cih_dict[...][...]`):
`KeyError` when the path is absent. -/
def reqField (o : Option String) : Except PyError String :=
  match o with
  | some s => .ok s
  | none => .error .keyError

/-- Python `int(s)` raising `ValueError` on failure. -/
def pyIntE (s : String) : Except PyError Int :=
  match pythonInt s with
  | some n => .ok n
  | none => .error .valueError

/-- Python `float(s)` raising `ValueError` on failure. -/
def pyFloatE (s : String) : Except PyError Rat :=
  match pythonFloat s with
  | some q => .ok q
  | none => .error .valueError

/-- The dictionary literal built by the `.cihx` branch (source lines
208-222), with lookups and conversions evaluated in source order. -/
def getCihxDict (doc : CihxDoc) : Except PyError Dict := do
  let date ← reqField doc.date
  let dev ← reqField doc.deviceName
  let rr ← pyFloatE (← reqField doc.recordRate)
  let ss ← pyFloatE (← reqField doc.shutterSpeed)
  let tf ← pyIntE (← reqField doc.totalFrame)
  let otf ← pyIntE (← reqField doc.recordedFrame)
  let w ← pyIntE (← reqField doc.width)
  let h ← pyIntE (← reqField doc.height)
  let ff ← reqField doc.fileFormat
  let ebd ← pyIntE (← reqField doc.effBitDepth)
  let ebs ← reqField doc.effBitSide
  let cb ← pyIntE (← reqField doc.colorBit)
  let basic ← match doc.basicInfo with
    | some b => Except.ok b
    | none => Except.error PyError.keyError
  let comment := basic.getD ""
  return [("Date", .str date),
          ("Camera Type", .str dev),
          ("Record Rate(fps)", .float rr),
          ("Shutter Speed(s)", .float ss),
          ("Total Frame", .int tf),
          ("Original Total Frame", .int otf),
          ("Image Width", .int w),
          ("Image Height", .int h),
          ("File Format", .str ff),
          ("EffectiveBit Depth", .int ebd),
          ("EffectiveBit Side", .str ebs),
          ("Color Bit", .int cb),
          ("Comment Text", .str comment)]

/-- `_get_cih` (source lines 169-247): dispatch on the header file
extension.  `content` is the text of the header file; `xmlParse` is
the external `xmltodict.parse` collaborator. -/
def get_cih (xmlParse : String → Except PyError CihxDoc)
    (content : String) (filename : String) : Except PyError Dict :=
  let ext := (splitext filename).2
  if ext = ".cih" then
    .ok (parseCih (strReadlines content))
  else if ext = ".cihx" then
    match extractSpan (strReadlines content) with
    | none => .error .indexError
    | some span =>
      match xmlParse span with
      | .error e => .error e
      | .ok doc => getCihxDict doc

  else .error (.unsupportedConfig ext)

/-! ### NumPy arrays as needed by the code paths -/

/-- The array shapes and element kinds flowing through `get_frame`:
2-d integer arrays (decoded monochrome frames, final outputs), 3-d
integer arrays (decoded colour frames, `(h, w, channels)`), and 2-d
float arrays (the result of `np.dot` with float weights). -/
inductive NDArray where
  | int2d (a : List (List Int))
  | int3d (a : List (List (List Int)))
  | float2d (a : List (List Rat))
  deriving DecidableEq, Repr

/-- `len(image.shape)`. -/
def ndim : NDArray → Nat
  | .int2d _ => 2
  | .int3d _ => 3
  | .float2d _ => 2

/-- Truncation toward zero, as the C cast from floating point to an
integer type behaves (for values representable in the target). -/
def ratTrunc (q : Rat) : Int :=
  if q < 0 then -(Rat.floor (-q)) else Rat.floor q

/-- `np.asarray(image, dtype=np.uintN)`: elementwise conversion to the
`N`-bit unsigned type, modelled as truncation toward zero followed by
reduction modulo `2 ^ N` (the wrap-around of the C conversion for
integer sources; all values in this development are nonnegative and in
range, where this is exact). -/
def npAsarray (bits : Nat) : NDArray → NDArray
  | .int2d a => .int2d (a.map (List.map (fun x => x.emod (2 ^ bits : Nat))))
  | .int3d a => .int3d (a.map (List.map (List.map (fun x => x.emod (2 ^ bits : Nat)))))
  | .float2d a => .int2d (a.map (List.map (fun q => (ratTrunc q).emod (2 ^ bits : Nat))))

/-- The grayscale weights of the source:
`np.dot(image, [0.2989, 0.5870, 0.1140])` applied to one pixel.
`none` models the `ValueError` `np.dot` raises when the last axis does
not have length 3. -/
def pixDot (p : List Int) : Option Rat :=
  match p with
  | [r, g, b] =>
    some (mkRat (2989 * r + 5870 * g + 1140 * b) 10000)
  | _ => none

/-- Effectful map in the `Option` monad (explicit recursion, used to
model whole-array operations that fail on any bad element). -/
def mapOpt {A B : Type} (f : A → Option B) : List A → Option (List B)
  | [] => some []
  | x :: xs =>
    match f x, mapOpt f xs with
    | some y, some ys => some (y :: ys)
    | _, _ => none

/-- `np.dot(image, [0.2989, 0.5870, 0.1140])` on a `(h, w, c)` integer
array, producing the `(h, w)` float array. -/
def npDotGray (a : List (List (List Int))) : Except PyError (List (List Rat)) :=
  match mapOpt (fun row => mapOpt pixDot row) a with
  | some g => .ok g
  | none => .error .valueError

/-! ### The `VideoReader` object -/

/-- `wanted_info` (source lines 55-65): the mandatory header keys. -/
def wantedInfo : List String :=
  ["Date", "Camera Type", "Record Rate(fps)", "Shutter Speed(s)",
   "Total Frame", "Image Width", "Image Height", "File Format",
   "EffectiveBit Depth", "Comment Text", "Color Bit"]

/-- `SUPPORTED_IMAGE_FORMATS` (source line 14). -/
def supportedImageFormats : List String :=
  ["png", "tif", "tiff", "bmp", "jpg", "jpeg"]

/-- `PYAV_SUPPORTED_VIDEO_FORMATS` (source line 15). -/
def pyavSupportedVideoFormats : List String :=
  ["avi", "mkv", "mp4", "mov", "m4v", "wmv", "webm", "flv", "ogg", "ogv"]

/-- The constructed `VideoReader` object: the attributes `__init__`
sets.  `mraw` is `some` exactly when the memory-mapped branch ran. -/
structure Handle where
  info : Dict
  root : String
  filename : String
  totalN : CihValue
  imageWidth : CihValue
  imageHeight : CihValue
  mraw : Option (List NDArray)
  deriving DecidableEq, Repr

/-- Dictionary lookup that cannot fail at its use sites (keys
guaranteed present by the preceding mandatory-key check); the default
is never reached there. -/
def dictGetD (d : Dict) (k : String) : CihValue :=
  (dictLookup d k).getD (.str "")

/-- `VideoReader.__init__` (source lines 24-81).  `xmlParse` models
`xmltodict.parse`, `loadMraw` models `pyMRAW.load_video` (returning
the indexable frame array), `content` is the text of the header file
at `cihFile`. -/
def videoReaderInit (xmlParse : String → Except PyError CihxDoc)
    (loadMraw : String → Except PyError (List NDArray))
    (content : String) (cihFile : String) : Except PyError Handle :=
  match get_cih xmlParse content cihFile with
  | .error e => .error e
  | .ok info =>
    if !(wantedInfo.all (dictMem info)) then .error .missingMetadataField
    else
      let root := (osPathSplit cihFile).1
      let filename := (splitextBase (osPathSplit cihFile).2.toList).1
      let handle0 : Handle :=
        { info := info
          root := root
          filename := ⟨filename⟩
          totalN := dictGetD info "Total Frame"
          imageWidth := dictGetD info "Image Width"
          imageHeight := dictGetD info "Image Height"
          mraw := none }
      match pyLowerE (dictGetD info "File Format") with
      | .error e => .error e
      | .ok ffl =>
        if ffl = "mraw" then
          match loadMraw cihFile with
          | .error e => .error e
          | .ok frames => .ok { handle0 with mraw := some frames }
        else .ok handle0

/-- Python ordering comparison `frameNumber >= v` between an `int` and
a dictionary value: `TypeError` when the value is a string. -/
def pyGeInt (n : Int) (v : CihValue) : Except PyError Bool :=
  match v with
  | .int m => .ok (decide (m ≤ n))
  | .float q => .ok (decide (q ≤ (n : Rat)))
  | .str _ => .error .typeError

/-- Python list indexing `frames[n]` for `n ≥ 0`:
`IndexError` past the end. -/
def listGetInt (frames : List NDArray) (n : Int) : Except PyError NDArray :=
  match frames.get? n.toNat with
  | some f => .ok f
  | none => .error .indexError

/-- The Python comparison `self.info['Color Bit'] == '8'`: equality of
a dictionary value with the string literal `'8'` (an `int` or `float`
value compares unequal to a string in Python). -/
def colorBitIsStr8 : CihValue → Bool
  | .str s => s == "8"
  | _ => false

/-- The final dtype cast of `get_frame` (source lines 103-105):
`np.uint8` when `self.info['Color Bit'] == '8'` — a comparison against
the string `'8'` — else `np.uint16`. -/
def castByColorBit (info : Dict) (image : NDArray) : Except PyError NDArray :=
  match dictLookup info "Color Bit" with
  | none => .error .keyError
  | some cb => .ok (npAsarray (if colorBitIsStr8 cb then 8 else 16) image)

/-- Decimal rendering of a nonnegative frame number
(`f'{frame_number:d}'` at its use site). -/
def intDecimal (n : Int) : String := toString n

/-- `VideoReader.get_frame` (source lines 83-105), together with
`_get_frame_from_image_stream` (130-138) and
`_get_frame_from_video_file` (140-154).  `decImg` and `decVid` are the
external `imageio.v3.imread` decoders; the second component of the
result is the list of files read (the I/O performed), in order.
`toGrayscale` is the `*args` forwarded to the video branch
(defaulting to `True`). -/
def get_frame (decImg : String → NDArray) (decVid : String → Int → NDArray)
    (h : Handle) (frameNumber : Int) (toGrayscale : Bool := true) :
    Except PyError NDArray × List String :=
  if frameNumber < 0 then (.error .frameIndexOutOfRange, [])
  else
    match dictLookup h.info "Total Frame" with
    | none => (.error .keyError, [])
    | some tf =>
      match pyGeInt frameNumber tf with
      | .error e => (.error e, [])
      | .ok true => (.error .frameIndexOutOfRange, [])
      | .ok false =>
        match dictLookup h.info "File Format" with
        | none => (.error .keyError, [])
        | some ffv =>
          match pyLowerE ffv with
          | .error e => (.error e, [])
          | .ok ff =>
            if ff = "mraw" then
              match h.mraw with
              | none => (.error .attributeError, [])
              | some frames => (listGetInt frames frameNumber, [])
            else if supportedImageFormats.contains ff then
              let input := osPathJoin h.root
                (h.filename ++ "_" ++ intDecimal frameNumber ++ "." ++ ff)
              let image := decImg input
              (castByColorBit h.info image, [input])
            else if pyavSupportedVideoFormats.contains ff then
              let input := osPathJoin h.root (h.filename ++ "." ++ ff)
              let image := decVid input frameNumber
              let reduced : Except PyError NDArray :=
                match image with
                | .int3d a =>
                  if toGrayscale then (npDotGray a).map .float2d
                  else .ok image
                | _ => .ok image
              match reduced with
              | .error e => (.error e, [input])
              | .ok img => (castByColorBit h.info img, [input])
            else (.error .unsupportedFormat, [])

/-! ### Spec-side definitions

These follow the wording of the specification (not the source), for the
refinement comparisons. -/

/-- Value coercion as the specification words it: a value containing
`'.'` parses as floating point, otherwise as integer, falling back to
the raw string on failure. -/
def specCoerce (v : String) : CihValue :=
  if v.toList.contains '.' then ((pythonFloat v).map .float).getD (.str v)
  else ((pythonInt v).map .int).getD (.str v)

/-- The `.cih` text parser as the specification describes it: take the
lines before the first blank line; each line splitting into exactly two
parts on the separator contributes its coerced key/value pair; other
lines contribute nothing. -/
def specCihParse (lines : List String) : Dict :=
  (lines.takeWhile (fun l => !(l == "\n"))).foldl
    (fun d l =>
      match pySplit (stripNewline l) " : " with
      | [key, value] => dictSet d key (specCoerce value)
      | _ => d) []

/-- Span extraction as the claim words it: from the first line
containing the opening root tag through the last line containing the
closing root tag. -/
def claimSpan (lines : List String) : Option String :=
  match findFirstIdx (fun l => strHasSub l "<cih>") lines,
        findLastIdx (fun l => strHasSub l "</cih>") lines with
  | some a, some b => some (joinSlice lines a b)
  | _, _ => none

/-- The luma value the specification prescribes for one RGB pixel:
`Y = 0.299 R + 0.587 G + 0.114 B`, rounded to nearest integer. -/
def specLumaPixel (r g b : Int) : Int :=
  round (((299 * r + 587 * g + 114 * b : Int) : Rat) / 1000)

/-! ### Concrete data and dummy collaborators used in witnesses -/

/-- An XML-parser stand-in that always reports ill-formed input; it
satisfies (vacuously or directly) every collaborator contract used in
the theorems. -/
def dummyXmlParse : String → Except PyError CihxDoc :=
  fun _ => .error .malformedHeader

/-- A memory-map loader stand-in. -/
def dummyLoadMraw : String → Except PyError (List NDArray) :=
  fun _ => .error .valueError

/-- An image decoder stand-in. -/
def dummyDecImg : String → NDArray := fun _ => .int2d []

/-- A video decoder stand-in. -/
def dummyDecVid : String → Int → NDArray := fun _ _ => .int2d []

/-- A complete `.cih` text header (the docstring example, with concrete
values for every mandatory field). -/
def cihTextPng : String :=
  "#Camera Information Header\nDate : 2023/07/09\nCamera Type : Blender\nRecord Rate(fps) : 20000\nShutter Speed(s) : 0.5\nTotal Frame : 2500\nImage Width : 1024\nImage Height : 1024\nFile Format : PNG\nEffectiveBit Depth : 16\nColor Bit : 16\nComment Text : test\n"

/-- The same header with `File Format : avi` (a video container). -/
def cihTextAvi : String :=
  "#Camera Information Header\nDate : 2023/07/09\nCamera Type : Blender\nRecord Rate(fps) : 20000\nShutter Speed(s) : 0.5\nTotal Frame : 2500\nImage Width : 1024\nImage Height : 1024\nFile Format : avi\nEffectiveBit Depth : 16\nColor Bit : 16\nComment Text : test\n"

/-- A header lacking the mandatory `Color Bit` key. -/
def cihTextNoColorBit : String :=
  "Date : 2023/07/09\nCamera Type : Blender\nRecord Rate(fps) : 20000\nShutter Speed(s) : 0.5\nTotal Frame : 2500\nImage Width : 1024\nImage Height : 1024\nFile Format : PNG\nEffectiveBit Depth : 16\nComment Text : test\n"

/-- The same header with `Color Bit : 8`. -/
def cihText8 : String :=
  "#Camera Information Header\nDate : 2023/07/09\nCamera Type : Blender\nRecord Rate(fps) : 20000\nShutter Speed(s) : 0.5\nTotal Frame : 2500\nImage Width : 1024\nImage Height : 1024\nFile Format : PNG\nEffectiveBit Depth : 16\nColor Bit : 8\nComment Text : test\n"

/-- A `.cihx` document semantically identical to `cihTextPng` on the
mandatory fields. -/
def cihxDocPng : CihxDoc :=
  { date := some "2023/07/09"
    deviceName := some "Blender"
    recordRate := some "20000"
    shutterSpeed := some "0.5"
    totalFrame := some "2500"
    recordedFrame := some "2500"
    width := some "1024"
    height := some "1024"
    fileFormat := some "PNG"
    effBitDepth := some "16"
    effBitSide := some "lower"
    colorBit := some "16"
    basicInfo := some (some "test") }

/-- A handle as produced by construction from `cihTextPng` at path
`rec.cih`. -/
def pngHandle : Handle :=
  { info := parseCih (strReadlines cihTextPng)
    root := ""
    filename := "rec"
    totalN := .int 2500
    imageWidth := .int 1024
    imageHeight := .int 1024
    mraw := none }

/-- A handle as produced by construction from `cihTextAvi` at path
`rec.cih`. -/
def aviHandle : Handle :=
  { info := parseCih (strReadlines cihTextAvi)
    root := ""
    filename := "rec"
    totalN := .int 2500
    imageWidth := .int 1024
    imageHeight := .int 1024
    mraw := none }

/-! ## Theorems -/

/-- The code's value coercion agrees with the specification's wording
of the three-tier coercion. -/
theorem coerceValue_eq_spec (v : String) : coerceValue v = specCoerce v := by
  unfold coerceValue specCoerce
  by_cases hd : v.toList.contains '.' = true
  · simp only [hd, if_pos]
    cases pythonFloat v <;> simp
  · simp only [Bool.not_eq_true] at hd
    simp only [hd, Bool.false_eq_true, if_false]
    cases pythonInt v <;> simp

/-- The line loop of the text parser equals the fold over the lines
before the first blank line. -/
theorem parseCihAux_eq_foldl (lines : List String) (d : Dict) :
    parseCihAux lines d =
      (lines.takeWhile (fun l => !(l == "\n"))).foldl
        (fun d l =>
          match pySplit (stripNewline l) " : " with
          | [key, value] => dictSet d key (specCoerce value)
          | _ => d) d := by
  induction lines generalizing d with
  | nil => rfl
  | cons l rest ih =>
    by_cases hl : l = "\n"
    · subst hl
      simp [parseCihAux, List.takeWhile]
    · have hl' : (l == "\n") = false := by
        simpa using hl
      rcases hsp : pySplit (stripNewline l) " : " with _ | ⟨key, _ | ⟨value, _ | ⟨x, xs⟩⟩⟩ <;>
        simp [parseCihAux, hl, List.takeWhile, hl', hsp, ih, coerceValue_eq_spec]

/-- C7: the `.cih` text parser processes the lines before the first
blank line; every line splitting into exactly two parts on `" : "`
contributes its key with the value coerced float-if-dotted, else
integer, else raw string; all other lines are ignored.  Stated as the
equality of the source parser with the parser written from the
specification's wording. -/
theorem cih_text_parser_matches_spec (lines : List String) :
    parseCih lines = specCihParse lines := by
  unfold parseCih specCihParse
  exact parseCihAux_eq_foldl lines []

/-- C1: an out-of-range index (negative, or at least the header's
total frame count) makes `get_frame` fail with the index error, with
no file read and independently of the decoders and of the recording's
file format. -/
theorem getFrame_oob_fails_before_io
    (decImg : String → NDArray) (decVid : String → Int → NDArray)
    (h : Handle) (n N : Int) (g : Bool)
    (hTF : dictLookup h.info "Total Frame" = some (.int N))
    (hout : n < 0 ∨ N ≤ n) :
    get_frame decImg decVid h n g = (.error .frameIndexOutOfRange, []) := by
  by_cases hneg : n < 0
  · simp [get_frame, hneg]
  · rcases hout with h1 | h2
    · exact absurd h1 hneg
    · simp [get_frame, hneg, hTF, pyGeInt, h2]

/-- Witness for C1 at a concrete handle and index. -/
theorem getFrame_oob_fails_before_io_witness :
    get_frame dummyDecImg dummyDecVid pngHandle 2500 true
      = (.error .frameIndexOutOfRange, []) :=
  getFrame_oob_fails_before_io dummyDecImg dummyDecVid pngHandle 2500 2500 true
    (by decide) (Or.inr (by decide))

/-- A fallback of the text coercion is always the raw token itself. -/
theorem coerceValue_str_eq (v s : String) (h : coerceValue v = .str s) : s = v := by
  unfold coerceValue at h
  by_cases hd : v.toList.contains '.' = true
  · rw [if_pos hd] at h
    cases hq : pythonFloat v <;> rw [hq] at h <;> simp_all
  · rw [if_neg hd] at h
    cases hn : pythonInt v <;> rw [hn] at h <;> simp_all

/-- No token coerces to the string `"8"`: a dot-free `"8"` parses as
the integer `8`, so the string fallback never yields `"8"`.  Hence the
Python comparison with the literal `'8'` is false on every coerced
value. -/
theorem coerceValue_never_str8 (v : String) :
    colorBitIsStr8 (coerceValue v) = false := by
  by_cases hv : v = "8"
  · subst hv; decide
  · cases hc : coerceValue v with
    | int n => rfl
    | float q => rfl
    | str s =>
      have hs : s = v := coerceValue_str_eq v s hc
      subst hs
      simpa [colorBitIsStr8] using hv

/-- Every value stored by the text-parser loop is the coercion of some
raw token (starting from a dictionary with the same property). -/
theorem parseCihAux_values (lines : List String) :
    ∀ d : Dict, (∀ k cb, dictLookup d k = some cb → ∃ v, cb = coerceValue v) →
    ∀ k cb, dictLookup (parseCihAux lines d) k = some cb → ∃ v, cb = coerceValue v := by
  induction lines with
  | nil => intro d hd; exact hd
  | cons l rest ih =>
    intro d hd k cb
    by_cases hl : l = "\n"
    · subst hl; simpa [parseCihAux] using hd k cb
    · rcases hsp : pySplit (stripNewline l) " : " with _ | ⟨key, _ | ⟨value, _ | ⟨x, xs⟩⟩⟩ <;>
        simp only [parseCihAux, hl, if_neg, hsp] <;>
        try exact ih d hd k cb
      refine ih (dictSet d key (coerceValue value)) ?_ k cb
      intro k' cb' hk'
      by_cases hkey : key = k'
      · subst hkey
        simp [dictSet, dictLookup] at hk'
        exact ⟨value, hk'.symm⟩
      · simp [dictSet, dictLookup, hkey] at hk'
        exact hd k' cb' hk'

/-- C3 (code bug): the final cast compares the parsed `Color Bit`
against the string `'8'`, but the parsers only ever produce an integer
there, so the 8-bit branch is dead: a header declaring `Color Bit : 8`
parses to the integer `8`, a decoded pixel value `300` survives the
cast (a 16-bit cast) where the claimed 8-bit cast would have wrapped
it to `44`; and on every text header whatsoever the string comparison
is false. -/
theorem colorBit8_still_casts_uint16 :
    ((videoReaderInit dummyXmlParse dummyLoadMraw cihText8 "rec.cih").map
        (fun h => dictLookup h.info "Color Bit") = .ok (some (.int 8))) ∧
    ((videoReaderInit dummyXmlParse dummyLoadMraw cihText8 "rec.cih").map
        (fun h => get_frame (fun _ => .int2d [[300]]) dummyDecVid h 0 true)
      = .ok (.ok (.int2d [[300]]), ["rec_0.png"])) ∧
    (npAsarray 8 (.int2d [[300]]) = .int2d [[44]]) ∧
    (∀ lines cb, dictLookup (parseCih lines) "Color Bit" = some cb →
      colorBitIsStr8 cb = false) := by
  refine ⟨by decide, by decide, by decide, ?_⟩
  intro lines cb hcb
  obtain ⟨v, rfl⟩ :=
    parseCihAux_values lines [] (by intro k cb h; cases h) "Color Bit" cb hcb
  exact coerceValue_never_str8 v

/-- Witness for the universally quantified part of the C3 theorem at a
concrete header. -/
theorem colorBit8_still_casts_uint16_witness :
    colorBitIsStr8 (CihValue.int 8) = false :=
  colorBit8_still_casts_uint16.2.2.2 (strReadlines cihText8) (.int 8) (by decide)

/-- C6 (counterexample): opening a recording through a bare image file
of the sequence, with no header, does not succeed: construction fails
with the unsupported-configuration error already in `_get_cih`
(regardless of what is on disk). -/
theorem open_image_without_header_fails :
    videoReaderInit dummyXmlParse dummyLoadMraw "" "img_0.png"
      = .error (.unsupportedConfig ".png") := by decide

/-- C6 (amended): any opening path whose extension is neither `.cih`
nor `.cihx` is rejected at construction time with the
unsupported-configuration error; in particular no sibling files are
enumerated and no frame count is derived from the directory. -/
theorem nonHeaderExtension_rejected
    (xmlP : String → Except PyError CihxDoc)
    (loadM : String → Except PyError (List NDArray))
    (content path : String)
    (h1 : (splitext path).2 ≠ ".cih") (h2 : (splitext path).2 ≠ ".cihx") :
    videoReaderInit xmlP loadM content path
      = .error (.unsupportedConfig (splitext path).2) := by
  unfold videoReaderInit get_cih
  simp [h1, h2]

/-- Witness for C6 (amended) at a concrete image-file path. -/
theorem nonHeaderExtension_rejected_witness :
    videoReaderInit dummyXmlParse dummyLoadMraw "" "img_9.png"
      = .error (.unsupportedConfig ".png") :=
  nonHeaderExtension_rejected dummyXmlParse dummyLoadMraw "" "img_9.png"
    (by decide) (by decide)

/-- C8: construction fails with the missing-metadata error whenever the
parsed header lacks one of the eleven mandatory keys, and every
successfully constructed handle carries all eleven. -/
theorem init_requires_mandatory_keys
    (xmlP : String → Except PyError CihxDoc)
    (loadM : String → Except PyError (List NDArray))
    (content path : String) :
    (∀ d, get_cih xmlP content path = .ok d → wantedInfo.all (dictMem d) = false →
      videoReaderInit xmlP loadM content path = .error .missingMetadataField) ∧
    (∀ h, videoReaderInit xmlP loadM content path = .ok h →
      wantedInfo.all (dictMem h.info) = true) := by
  constructor
  · intro d hcih hmiss
    simp [videoReaderInit, hcih, hmiss]
  · intro h hok
    unfold videoReaderInit at hok
    cases hcih : get_cih xmlP content path with
    | error e => rw [hcih] at hok; cases hok
    | ok info =>
      rw [hcih] at hok
      by_cases hall : wantedInfo.all (dictMem info) = true
      · simp only [hall, Bool.not_true, Bool.false_eq_true, if_false] at hok
        cases hpl : pyLowerE (dictGetD info "File Format") with
        | error e => rw [hpl] at hok; cases hok
        | ok ffl =>
          rw [hpl] at hok
          dsimp only at hok
          by_cases hm : ffl = "mraw"
          · rw [if_pos hm] at hok
            cases hld : loadM path with
            | error e => rw [hld] at hok; cases hok
            | ok frames =>
              rw [hld] at hok
              cases hok
              simpa using hall
          · rw [if_neg hm] at hok
            cases hok
            simpa using hall
      · have hf : wantedInfo.all (dictMem info) = false :=
          Bool.eq_false_iff.mpr hall
        simp [hf] at hok

/-- Witness for C8 at a header missing the `Color Bit` key. -/
theorem init_requires_mandatory_keys_witness :
    videoReaderInit dummyXmlParse dummyLoadMraw cihTextNoColorBit "rec.cih"
      = .error .missingMetadataField :=
  (init_requires_mandatory_keys dummyXmlParse dummyLoadMraw cihTextNoColorBit
      "rec.cih").1 (parseCih (strReadlines cihTextNoColorBit))
    (by decide) (by decide)

/-- No supported image-format name is the string `"mraw"`. -/
theorem imageFormats_ne_mraw (s : String)
    (hs : supportedImageFormats.contains s = true) : s ≠ "mraw" := by
  simp [supportedImageFormats] at hs
  rcases hs with rfl | rfl | rfl | rfl | rfl | rfl <;> decide

/-- No supported video-format name is the string `"mraw"`. -/
theorem videoFormats_ne_mraw (s : String)
    (hs : pyavSupportedVideoFormats.contains s = true) : s ≠ "mraw" := by
  simp [pyavSupportedVideoFormats] at hs
  rcases hs with rfl | rfl | rfl | rfl | rfl | rfl | rfl | rfl | rfl | rfl <;> decide

/-- The image-format and video-format lists are disjoint. -/
theorem videoFormats_not_image (s : String)
    (hs : pyavSupportedVideoFormats.contains s = true) :
    supportedImageFormats.contains s = false := by
  simp [pyavSupportedVideoFormats] at hs
  rcases hs with rfl | rfl | rfl | rfl | rfl | rfl | rfl | rfl | rfl | rfl <;> decide

/-- C4 (counterexample): a 3-plane frame decoded from an image
sequence is returned with its 3 planes (only dtype-cast), so its shape
is not `(height, width)` and no luma conversion is applied. -/
theorem imageSequence_no_luma_reduction :
    ((videoReaderInit dummyXmlParse dummyLoadMraw cihTextPng "rec.cih").map
        (fun h => get_frame (fun _ => .int3d [[[10, 20, 30]]]) dummyDecVid h 0 true)
      = .ok (.ok (.int3d [[[10, 20, 30]]]), ["rec_0.png"])) ∧
    (ndim (.int3d [[[10, 20, 30]]]) ≠ 2) :=
  ⟨by decide, by decide⟩

/-- C4 (amended): for an image-sequence recording, `get_frame` returns
the decoded frame unchanged except for the final dtype cast: no
channel reduction is applied for this format (only the video-container
path reduces channels), and the cast preserves the decoder's output
shape. -/
theorem imageStream_passthrough
    (decImg : String → NDArray) (decVid : String → Int → NDArray)
    (h : Handle) (n N : Int) (g : Bool) (F : String) (cb : CihValue)
    (hTF : dictLookup h.info "Total Frame" = some (.int N))
    (h0 : 0 ≤ n) (hlt : n < N)
    (hFF : dictLookup h.info "File Format" = some (.str F))
    (himg : supportedImageFormats.contains (pyStrLower F) = true)
    (hCB : dictLookup h.info "Color Bit" = some cb)
    (hcb : colorBitIsStr8 cb = false) :
    (get_frame decImg decVid h n g
      = (.ok (npAsarray 16 (decImg (osPathJoin h.root
            (h.filename ++ "_" ++ intDecimal n ++ "." ++ pyStrLower F)))),
         [osPathJoin h.root (h.filename ++ "_" ++ intDecimal n ++ "." ++ pyStrLower F)])) ∧
    (∀ img bits, ndim (npAsarray bits img) = ndim img) := by
  have hn : ¬ n < 0 := not_lt.mpr h0
  have hge : decide (N ≤ n) = false := decide_eq_false (not_le.mpr hlt)
  have hmr : pyStrLower F ≠ "mraw" := imageFormats_ne_mraw _ himg
  have himg' : pyStrLower F ∈ supportedImageFormats := by simpa using himg
  constructor
  · simp [get_frame, hn, hTF, pyGeInt, hge, hFF, pyLowerE, hmr, himg',
      castByColorBit, hCB, hcb]
  · intro img bits
    cases img <;> rfl

/-- Witness for C4 (amended) at a concrete handle and decoder. -/
theorem imageStream_passthrough_witness :
    (get_frame (fun _ => NDArray.int3d [[[10, 20, 30]]]) dummyDecVid pngHandle 0 true
      = (.ok (npAsarray 16 ((fun _ => NDArray.int3d [[[10, 20, 30]]]) (osPathJoin pngHandle.root
            (pngHandle.filename ++ "_" ++ intDecimal 0 ++ "." ++ pyStrLower "PNG")))),
         [osPathJoin pngHandle.root (pngHandle.filename ++ "_" ++ intDecimal 0 ++ "." ++ pyStrLower "PNG")])) ∧
    (∀ img bits, ndim (npAsarray bits img) = ndim img) :=
  imageStream_passthrough (fun _ => NDArray.int3d [[[10, 20, 30]]]) dummyDecVid
    pngHandle 0 2500 true "PNG" (.int 16)
    (by decide) (by decide) (by decide) (by decide) (by decide) (by decide) (by decide)

/-- C5 (counterexample): for the 3-plane pixel `(0, 1, 0)` decoded
from a video container, the code returns `0` (weights `0.2989 /
0.5870 / 0.1140` and a truncating cast) while the claim's formula
(`0.587`, rounded to nearest) gives `1`. -/
theorem luma_rounding_counterexample :
    ((videoReaderInit dummyXmlParse dummyLoadMraw cihTextAvi "rec.cih").map
        (fun h => get_frame dummyDecImg (fun _ _ => .int3d [[[0, 1, 0]]]) h 0 true)
      = .ok (.ok (.int2d [[0]]), ["rec.avi"])) ∧
    specLumaPixel 0 1 0 = 1 ∧ (0 : Int) ≠ 1 := by
  refine ⟨by decide, ?_, by decide⟩
  unfold specLumaPixel
  norm_num [round_eq]

/-- One row of `np.dot` with the grayscale weights, on pixels given as
triples. -/
theorem pixDot_row (row : List (Int × Int × Int)) :
    mapOpt pixDot (row.map (fun t => [t.1, t.2.1, t.2.2]))
      = some (row.map (fun t => mkRat (2989 * t.1 + 5870 * t.2.1 + 1140 * t.2.2) 10000)) := by
  induction row with
  | nil => rfl
  | cons t rest ih => simp [mapOpt, pixDot, ih]

/-- `np.dot` with the grayscale weights on a frame of triples. -/
theorem npDotGray_triples (a : List (List (Int × Int × Int))) :
    npDotGray (a.map (List.map (fun t => [t.1, t.2.1, t.2.2])))
      = .ok (a.map (List.map (fun t =>
          mkRat (2989 * t.1 + 5870 * t.2.1 + 1140 * t.2.2) 10000))) := by
  unfold npDotGray
  have hmm : mapOpt (fun row => mapOpt pixDot row)
      (a.map (List.map (fun t : Int × Int × Int => [t.1, t.2.1, t.2.2])))
      = some (a.map (List.map (fun t =>
          mkRat (2989 * t.1 + 5870 * t.2.1 + 1140 * t.2.2) 10000))) := by
    induction a with
    | nil => rfl
    | cons row rest ih => simp [mapOpt, pixDot_row, ih]
  rw [hmm]

/-- C5 (amended): for a 3-plane frame decoded from a video container,
each output pixel is `0.2989 R + 0.5870 G + 0.1140 B` (exact decimal
weights of the source) truncated toward zero by the final 16-bit
unsigned cast — not the `0.299/0.587/0.114` weighted sum rounded to
nearest. -/
theorem videoLuma_formula
    (decImg : String → NDArray) (decVid : String → Int → NDArray)
    (h : Handle) (n N : Int) (F : String) (cb : CihValue)
    (a : List (List (Int × Int × Int)))
    (hTF : dictLookup h.info "Total Frame" = some (.int N))
    (h0 : 0 ≤ n) (hlt : n < N)
    (hFF : dictLookup h.info "File Format" = some (.str F))
    (hvid : pyavSupportedVideoFormats.contains (pyStrLower F) = true)
    (hCB : dictLookup h.info "Color Bit" = some cb)
    (hcb : colorBitIsStr8 cb = false)
    (hdec : decVid (osPathJoin h.root (h.filename ++ "." ++ pyStrLower F)) n
      = .int3d (a.map (List.map (fun t => [t.1, t.2.1, t.2.2])))) :
    get_frame decImg decVid h n true
      = (.ok (.int2d (a.map (List.map (fun t =>
            (ratTrunc (mkRat (2989 * t.1 + 5870 * t.2.1 + 1140 * t.2.2) 10000)).emod
              (2 ^ 16 : Nat))))),
         [osPathJoin h.root (h.filename ++ "." ++ pyStrLower F)]) := by
  have hn : ¬ n < 0 := not_lt.mpr h0
  have hge : decide (N ≤ n) = false := decide_eq_false (not_le.mpr hlt)
  have hmr : pyStrLower F ≠ "mraw" := videoFormats_ne_mraw _ hvid
  have hni : supportedImageFormats.contains (pyStrLower F) = false :=
    videoFormats_not_image _ hvid
  have hni' : pyStrLower F ∉ supportedImageFormats := by
    simpa using hni
  have hvid' : pyStrLower F ∈ pyavSupportedVideoFormats := by simpa using hvid
  simp [get_frame, hn, hTF, pyGeInt, hge, hFF, pyLowerE, hmr, hni', hvid',
    hdec, npDotGray_triples, castByColorBit, hCB, hcb, npAsarray, Except.map,
    List.map_map, Function.comp]

/-- Witness for C5 (amended) at a concrete 2-pixel frame. -/
theorem videoLuma_formula_witness :
    get_frame dummyDecImg (fun _ _ => .int3d [[[0, 1, 0], [1000, 0, 0]]])
        aviHandle 0 true
      = (.ok (.int2d [[(ratTrunc (mkRat (2989 * 0 + 5870 * 1 + 1140 * 0) 10000)).emod (2 ^ 16 : Nat),
                       (ratTrunc (mkRat (2989 * 1000 + 5870 * 0 + 1140 * 0) 10000)).emod (2 ^ 16 : Nat)]]),
         [osPathJoin aviHandle.root (aviHandle.filename ++ "." ++ pyStrLower "avi")]) :=
  videoLuma_formula dummyDecImg (fun _ _ => .int3d [[[0, 1, 0], [1000, 0, 0]]])
    aviHandle 0 2500 "avi" (.int 16) [[(0, 1, 0), (1000, 0, 0)]]
    (by decide) (by decide) (by decide) (by decide) (by decide) (by decide)
    (by decide) (by decide)

/-- Inversion for a successful `Except` bind. -/
theorem exceptBind_ok {E A B : Type} (x : Except E A) (f : A → Except E B) (b : B)
    (h : (x >>= f) = .ok b) : ∃ a, x = .ok a ∧ f a = .ok b := by
  cases x with
  | error e => simp [Bind.bind, Except.bind] at h
  | ok a => exact ⟨a, rfl, by simpa [Bind.bind, Except.bind] using h⟩

/-- C10: the `.cihx` extraction additionally dereferences
`frameInfo/recordedFrame` and `imageDataInfo/effectiveBit/side`
(fields outside the mandatory set), so a `.cihx` document lacking
either never yields a parsed record, while a `.cih` text header
without the corresponding keys constructs successfully when the
eleven mandatory keys are present. -/
theorem cihx_requires_extra_fields :
    (∀ doc : CihxDoc, doc.recordedFrame = none → ∀ d, getCihxDict doc ≠ .ok d) ∧
    (∀ doc : CihxDoc, doc.effBitSide = none → ∀ d, getCihxDict doc ≠ .ok d) ∧
    (∀ (xmlP : String → Except PyError CihxDoc)
       (loadM : String → Except PyError (List NDArray))
       (content path s : String),
      (splitext path).2 = ".cih" →
      wantedInfo.all (dictMem (parseCih (strReadlines content))) = true →
      dictMem (parseCih (strReadlines content)) "Original Total Frame" = false →
      dictMem (parseCih (strReadlines content)) "EffectiveBit Side" = false →
      dictLookup (parseCih (strReadlines content)) "File Format" = some (.str s) →
      pyStrLower s ≠ "mraw" →
      ∃ h, videoReaderInit xmlP loadM content path = .ok h ∧
        dictMem h.info "Original Total Frame" = false ∧
        dictMem h.info "EffectiveBit Side" = false) := by
  refine ⟨?_, ?_, ?_⟩
  · intro doc hrf d heq
    unfold getCihxDict at heq
    obtain ⟨date, hdate, heq⟩ := exceptBind_ok _ _ _ heq
    obtain ⟨dev, hdev, heq⟩ := exceptBind_ok _ _ _ heq
    obtain ⟨rrS, hrrS, heq⟩ := exceptBind_ok _ _ _ heq
    obtain ⟨rr, hrr, heq⟩ := exceptBind_ok _ _ _ heq
    obtain ⟨ssS, hssS, heq⟩ := exceptBind_ok _ _ _ heq
    obtain ⟨ss, hss, heq⟩ := exceptBind_ok _ _ _ heq
    obtain ⟨tfS, htfS, heq⟩ := exceptBind_ok _ _ _ heq
    obtain ⟨tf, htf, heq⟩ := exceptBind_ok _ _ _ heq
    obtain ⟨rfS, hrfS, heq⟩ := exceptBind_ok _ _ _ heq
    rw [hrf] at hrfS
    simp [reqField] at hrfS
  · intro doc hebs d heq
    unfold getCihxDict at heq
    obtain ⟨date, hdate, heq⟩ := exceptBind_ok _ _ _ heq
    obtain ⟨dev, hdev, heq⟩ := exceptBind_ok _ _ _ heq
    obtain ⟨rrS, hrrS, heq⟩ := exceptBind_ok _ _ _ heq
    obtain ⟨rr, hrr, heq⟩ := exceptBind_ok _ _ _ heq
    obtain ⟨ssS, hssS, heq⟩ := exceptBind_ok _ _ _ heq
    obtain ⟨ss, hss, heq⟩ := exceptBind_ok _ _ _ heq
    obtain ⟨tfS, htfS, heq⟩ := exceptBind_ok _ _ _ heq
    obtain ⟨tf, htf, heq⟩ := exceptBind_ok _ _ _ heq
    obtain ⟨rfS, hrfS, heq⟩ := exceptBind_ok _ _ _ heq
    obtain ⟨rf, hrf, heq⟩ := exceptBind_ok _ _ _ heq
    obtain ⟨wS, hwS, heq⟩ := exceptBind_ok _ _ _ heq
    obtain ⟨w, hw, heq⟩ := exceptBind_ok _ _ _ heq
    obtain ⟨hS, hhS, heq⟩ := exceptBind_ok _ _ _ heq
    obtain ⟨hgt, hhgt, heq⟩ := exceptBind_ok _ _ _ heq
    obtain ⟨ff, hff, heq⟩ := exceptBind_ok _ _ _ heq
    obtain ⟨ebdS, hebdS, heq⟩ := exceptBind_ok _ _ _ heq
    obtain ⟨ebd, hebd, heq⟩ := exceptBind_ok _ _ _ heq
    obtain ⟨ebs, hebs', heq⟩ := exceptBind_ok _ _ _ heq
    rw [hebs] at hebs'
    simp [reqField] at hebs'
  · intro xmlP loadM content path s hext hall hno1 hno2 hFF hmr
    refine
      ⟨{ info := parseCih (strReadlines content)
         root := (osPathSplit path).1
         filename := ⟨(splitextBase (osPathSplit path).2.toList).1⟩
         totalN := dictGetD (parseCih (strReadlines content)) "Total Frame"
         imageWidth := dictGetD (parseCih (strReadlines content)) "Image Width"
         imageHeight := dictGetD (parseCih (strReadlines content)) "Image Height"
         mraw := none }, ?_, hno1, hno2⟩
    simp [videoReaderInit, get_cih, hext, hall, dictGetD, hFF, pyLowerE, hmr]

/-- Witness for C10: the sample `.cihx` document without
`recordedFrame` fails, and the sample `.cih` text (which has neither
extra key) constructs. -/
theorem cihx_requires_extra_fields_witness :
    (getCihxDict { cihxDocPng with recordedFrame := none } ≠ .ok []) ∧
    (∃ h, videoReaderInit dummyXmlParse dummyLoadMraw cihTextPng "rec.cih" = .ok h ∧
      dictMem h.info "Original Total Frame" = false ∧
      dictMem h.info "EffectiveBit Side" = false) :=
  ⟨cihx_requires_extra_fields.1 _ (by decide) [],
   cihx_requires_extra_fields.2.2 dummyXmlParse dummyLoadMraw cihTextPng "rec.cih" "PNG"
     (by decide) (by decide) (by decide) (by decide) (by decide) (by decide)⟩

/-- A list of digits contains no dot. -/
theorem splitDot_of_digits (cs : List Char) (h : cs.all Char.isDigit = true) :
    splitDot cs = (cs, none) := by
  induction cs with
  | nil => rfl
  | cons c rest ih =>
    simp only [List.all_cons, Bool.and_eq_true] at h
    have hc : c ≠ '.' := by
      intro he
      subst he
      simp at h
    simp [splitDot, hc, ih h.2]

/-- Python `float` succeeds on everything `int` accepts, with the same
value. -/
theorem pythonFloat_of_pythonInt (s : String) (n : Int)
    (h : pythonInt s = some n) : pythonFloat s = some (mkRat n 1) := by
  unfold pythonInt at h
  unfold pythonFloat
  rcases hsp : splitSign (pyStripChars s.toList) with ⟨neg, cs⟩
  rw [hsp] at h
  simp only at h
  by_cases hd : allDigits cs = true
  · rw [if_pos hd] at h
    have hall : cs.all Char.isDigit = true := by
      unfold allDigits at hd
      exact (Bool.and_eq_true _ _ |>.mp hd).2
    simp only [splitDot_of_digits cs hall, hd, if_pos]
    cases h
    rfl
  · rw [if_neg hd] at h
    cases h

/-- The text coercion on a dot-free token that `int` accepts. -/
theorem coerceValue_int (v : String) (n : Int)
    (hd : v.toList.contains '.' = false) (hi : pythonInt v = some n) :
    coerceValue v = .int n := by
  unfold coerceValue
  rw [hd]
  simp [hi]

/-- The text coercion on a dotted token that `float` accepts. -/
theorem coerceValue_float (v : String) (q : Rat)
    (hd : v.toList.contains '.' = true) (hf : pythonFloat v = some q) :
    coerceValue v = .float q := by
  unfold coerceValue
  rw [hd]
  simp [hf]

/-- A line whose two-part split succeeded is not the blank line. -/
theorem split_line_ne_newline (l k v : String)
    (h : pySplit (stripNewline l) " : " = [k, v]) : l ≠ "\n" := by
  intro he
  rw [he] at h
  rw [show pySplit (stripNewline "\n") " : " = [""] from by decide] at h
  simp at h

/-- C2 (counterexample): a `.cih` text header and a `.cihx` document
carrying the same raw token `20000` for the record rate produce values
of different Python types (`int` from the text parser, `float` from
the XML parser), so the two logical records are not identical over the
mandatory field set. -/
theorem cih_cihx_type_mismatch :
    (dictLookup (parseCih (strReadlines cihTextPng)) "Record Rate(fps)"
      = some (.int 20000)) ∧
    ((getCihxDict cihxDocPng).map (fun d => dictLookup d "Record Rate(fps)")
      = .ok (some (.float (mkRat 20000 1)))) ∧
    CihValue.int 20000 ≠ CihValue.float (mkRat 20000 1) :=
  ⟨by decide, by decide, by decide⟩

/-- The ten mandatory keys on which the two encodings agree exactly
(all but the record rate). -/
def agreeingKeys : List String :=
  ["Date", "Camera Type", "Shutter Speed(s)", "Total Frame", "Image Width",
   "Image Height", "File Format", "EffectiveBit Depth", "Comment Text",
   "Color Bit"]

/-- C2 (amended): when a text header and an XML document carry the same
raw tokens for the mandatory fields (dot-free integer tokens for the
five integer-typed fields, a dotted float token for the shutter speed,
non-numeric tokens for the four string fields), the two parsed records
agree exactly on ten of the eleven mandatory keys; on
`Record Rate(fps)` they agree numerically but differ in type: the text
parser stores the integer, the XML parser always applies `float`. -/
theorem cih_cihx_mandatory_agreement
    (l0 l1 l2 l3 l4 l5 l6 l7 l8 l9 l10 : String)
    (dateS devS rrS ssS tfS wS hS ffS ebdS cmtS cbS rfS ebsS : String)
    (rr tf w hh ebd cb rfv : Int) (ss : Rat)
    (doc : CihxDoc)
    (hl0 : pySplit (stripNewline l0) " : " = ["Date", dateS])
    (hl1 : pySplit (stripNewline l1) " : " = ["Camera Type", devS])
    (hl2 : pySplit (stripNewline l2) " : " = ["Record Rate(fps)", rrS])
    (hl3 : pySplit (stripNewline l3) " : " = ["Shutter Speed(s)", ssS])
    (hl4 : pySplit (stripNewline l4) " : " = ["Total Frame", tfS])
    (hl5 : pySplit (stripNewline l5) " : " = ["Image Width", wS])
    (hl6 : pySplit (stripNewline l6) " : " = ["Image Height", hS])
    (hl7 : pySplit (stripNewline l7) " : " = ["File Format", ffS])
    (hl8 : pySplit (stripNewline l8) " : " = ["EffectiveBit Depth", ebdS])
    (hl9 : pySplit (stripNewline l9) " : " = ["Comment Text", cmtS])
    (hl10 : pySplit (stripNewline l10) " : " = ["Color Bit", cbS])
    (hdoc : doc =
      { date := some dateS
        deviceName := some devS
        recordRate := some rrS
        shutterSpeed := some ssS
        totalFrame := some tfS
        recordedFrame := some rfS
        width := some wS
        height := some hS
        fileFormat := some ffS
        effBitDepth := some ebdS
        effBitSide := some ebsS
        colorBit := some cbS
        basicInfo := some (some cmtS) })
    (hdate : coerceValue dateS = .str dateS)
    (hdev : coerceValue devS = .str devS)
    (hffv : coerceValue ffS = .str ffS)
    (hcmt : coerceValue cmtS = .str cmtS)
    (hrr : pythonInt rrS = some rr) (hrrd : rrS.toList.contains '.' = false)
    (hss : pythonFloat ssS = some ss) (hssd : ssS.toList.contains '.' = true)
    (htf : pythonInt tfS = some tf) (htfd : tfS.toList.contains '.' = false)
    (hw : pythonInt wS = some w) (hwd : wS.toList.contains '.' = false)
    (hh' : pythonInt hS = some hh) (hhd : hS.toList.contains '.' = false)
    (hebd : pythonInt ebdS = some ebd) (hebdd : ebdS.toList.contains '.' = false)
    (hcb : pythonInt cbS = some cb) (hcbd : cbS.toList.contains '.' = false)
    (hrf : pythonInt rfS = some rfv) :
    ∃ dX, getCihxDict doc = .ok dX ∧
      (∀ k, k ∈ agreeingKeys →
        dictLookup (parseCih [l0, l1, l2, l3, l4, l5, l6, l7, l8, l9, l10]) k
          = dictLookup dX k) ∧
      dictLookup (parseCih [l0, l1, l2, l3, l4, l5, l6, l7, l8, l9, l10])
          "Record Rate(fps)" = some (.int rr) ∧
      dictLookup dX "Record Rate(fps)" = some (.float (mkRat rr 1)) := by
  subst hdoc
  have hne0 := split_line_ne_newline _ _ _ hl0
  have hne1 := split_line_ne_newline _ _ _ hl1
  have hne2 := split_line_ne_newline _ _ _ hl2
  have hne3 := split_line_ne_newline _ _ _ hl3
  have hne4 := split_line_ne_newline _ _ _ hl4
  have hne5 := split_line_ne_newline _ _ _ hl5
  have hne6 := split_line_ne_newline _ _ _ hl6
  have hne7 := split_line_ne_newline _ _ _ hl7
  have hne8 := split_line_ne_newline _ _ _ hl8
  have hne9 := split_line_ne_newline _ _ _ hl9
  have hne10 := split_line_ne_newline _ _ _ hl10
  have hrrC := coerceValue_int _ _ hrrd hrr
  have hssC := coerceValue_float _ _ hssd hss
  have htfC := coerceValue_int _ _ htfd htf
  have hwC := coerceValue_int _ _ hwd hw
  have hhC := coerceValue_int _ _ hhd hh'
  have hebdC := coerceValue_int _ _ hebdd hebd
  have hcbC := coerceValue_int _ _ hcbd hcb
  have htext : parseCih [l0, l1, l2, l3, l4, l5, l6, l7, l8, l9, l10]
      = [("Color Bit", .int cb), ("Comment Text", .str cmtS),
         ("EffectiveBit Depth", .int ebd), ("File Format", .str ffS),
         ("Image Height", .int hh), ("Image Width", .int w),
         ("Total Frame", .int tf), ("Shutter Speed(s)", .float ss),
         ("Record Rate(fps)", .int rr), ("Camera Type", .str devS),
         ("Date", .str dateS)] := by
    simp [parseCih, parseCihAux, dictSet, hne0, hne1, hne2, hne3, hne4, hne5,
      hne6, hne7, hne8, hne9, hne10, hl0, hl1, hl2, hl3, hl4, hl5, hl6, hl7,
      hl8, hl9, hl10, hdate, hdev, hffv, hcmt, hrrC, hssC, htfC, hwC, hhC,
      hebdC, hcbC]
  refine ⟨[("Date", .str dateS), ("Camera Type", .str devS),
      ("Record Rate(fps)", .float (mkRat rr 1)), ("Shutter Speed(s)", .float ss),
      ("Total Frame", .int tf), ("Original Total Frame", .int rfv),
      ("Image Width", .int w), ("Image Height", .int hh),
      ("File Format", .str ffS), ("EffectiveBit Depth", .int ebd),
      ("EffectiveBit Side", .str ebsS), ("Color Bit", .int cb),
      ("Comment Text", .str cmtS)], ?_, ?_, ?_, ?_⟩
  · simp [getCihxDict, reqField, pyFloatE, pyIntE, Bind.bind, Except.bind,
      pure, Except.pure, pythonFloat_of_pythonInt _ _ hrr, hss, htf, hw, hh',
      hebd, hcb, hrf]
  · intro k hk
    rw [htext]
    fin_cases hk <;> simp [dictLookup]
  · rw [htext]
    simp [dictLookup]
  · simp [dictLookup]

/-- Witness for C2 (amended) at the sample header tokens. -/
theorem cih_cihx_mandatory_agreement_witness :
    ∃ dX, getCihxDict cihxDocPng = .ok dX ∧
      (∀ k, k ∈ agreeingKeys →
        dictLookup (parseCih ["Date : 2023/07/09\n", "Camera Type : Blender\n",
          "Record Rate(fps) : 20000\n", "Shutter Speed(s) : 0.5\n",
          "Total Frame : 2500\n", "Image Width : 1024\n", "Image Height : 1024\n",
          "File Format : PNG\n", "EffectiveBit Depth : 16\n",
          "Comment Text : test\n", "Color Bit : 16\n"]) k = dictLookup dX k) ∧
      dictLookup (parseCih ["Date : 2023/07/09\n", "Camera Type : Blender\n",
          "Record Rate(fps) : 20000\n", "Shutter Speed(s) : 0.5\n",
          "Total Frame : 2500\n", "Image Width : 1024\n", "Image Height : 1024\n",
          "File Format : PNG\n", "EffectiveBit Depth : 16\n",
          "Comment Text : test\n", "Color Bit : 16\n"])
        "Record Rate(fps)" = some (.int 20000) ∧
      dictLookup dX "Record Rate(fps)" = some (.float (mkRat 20000 1)) :=
  cih_cihx_mandatory_agreement
    "Date : 2023/07/09\n" "Camera Type : Blender\n" "Record Rate(fps) : 20000\n"
    "Shutter Speed(s) : 0.5\n" "Total Frame : 2500\n" "Image Width : 1024\n"
    "Image Height : 1024\n" "File Format : PNG\n" "EffectiveBit Depth : 16\n"
    "Comment Text : test\n" "Color Bit : 16\n"
    "2023/07/09" "Blender" "20000" "0.5" "2500" "1024" "1024" "PNG" "16" "test"
    "16" "2500" "lower"
    20000 2500 1024 1024 16 16 2500 (mkRat 5 10) cihxDocPng
    (by decide) (by decide) (by decide) (by decide) (by decide) (by decide)
    (by decide) (by decide) (by decide) (by decide) (by decide) (by decide)
    (by decide) (by decide) (by decide) (by decide) (by decide) (by decide)
    (by decide) (by decide) (by decide) (by decide) (by decide) (by decide)
    (by decide) (by decide) (by decide) (by decide) (by decide) (by decide)
    (by decide)

/-! ### Substring and line-splitting lemmas for the `.cihx` span -/

/-- `startsWith` is the prefix relation. -/
theorem startsWith_iff (pat : List Char) :
    ∀ s, startsWith pat s = true ↔ ∃ v, s = pat ++ v := by
  induction pat with
  | nil => intro s; simp [startsWith]
  | cons a as ih =>
    intro s
    cases s with
    | nil =>
      simp [startsWith]
    | cons b bs =>
      simp only [startsWith, Bool.and_eq_true, beq_iff_eq, ih]
      constructor
      · rintro ⟨rfl, v, rfl⟩
        exact ⟨v, rfl⟩
      · rintro ⟨v, hv⟩
        injection hv with h1 h2
        exact ⟨h1.symm, v, h2⟩

/-- `hasSub` is the contiguous-substring relation. -/
theorem hasSub_iff (pat : List Char) :
    ∀ s, hasSub pat s = true ↔ ∃ u v, s = u ++ (pat ++ v) := by
  intro s
  induction s with
  | nil =>
    simp only [hasSub, List.isEmpty_iff]
    constructor
    · intro h; exact ⟨[], [], by simp [h]⟩
    · rintro ⟨u, v, huv⟩
      rcases List.append_eq_nil.mp huv.symm with ⟨rfl, h2⟩
      rcases List.append_eq_nil.mp h2 with ⟨rfl, rfl⟩
      rfl
  | cons c rest ih =>
    simp only [hasSub, Bool.or_eq_true, startsWith_iff, ih]
    constructor
    · rintro (⟨v, hv⟩ | ⟨u, v, hv⟩)
      · exact ⟨[], v, by simpa using hv⟩
      · exact ⟨c :: u, v, by simp [hv]⟩
    · rintro ⟨u, v, huv⟩
      cases u with
      | nil => exact Or.inl ⟨v, by simpa using huv⟩
      | cons x xs =>
        injection huv with h1 h2
        exact Or.inr ⟨xs, v, h2⟩

/-- A substring of a middle piece is a substring of the whole. -/
theorem hasSub_extend (pat s x y : List Char) (hsub : hasSub pat s = true) :
    hasSub pat (x ++ s ++ y) = true := by
  obtain ⟨u, v, rfl⟩ := (hasSub_iff pat s).mp hsub
  exact (hasSub_iff pat _).mpr ⟨x ++ u, v ++ y, by simp⟩

/-- The line splitter loses no characters. -/
theorem charLinesAux_join (cs : List Char) :
    ∀ acc, (charLinesAux cs acc).flatten = acc.reverse ++ cs := by
  induction cs with
  | nil =>
    intro acc
    cases acc <;> simp [charLinesAux]
  | cons c rest ih =>
    intro acc
    by_cases hc : c = '\n'
    · subst hc; simp [charLinesAux, ih]
    · simp [charLinesAux, hc, ih]

/-- `charLines` partitions the character list. -/
theorem charLines_join (cs : List Char) : (charLines cs).flatten = cs := by
  simpa using charLinesAux_join cs []

/-- Appending strings appends their character data. -/
theorem strData_append (a b : String) : (a ++ b).data = a.data ++ b.data := by
  cases a; cases b; rfl

/-- `String.join` concatenates the character data. -/
theorem strJoin_data (L : List String) :
    (String.join L).data = (L.map String.data).flatten := by
  have aux : ∀ (M : List String) (s : String),
      (M.foldl (fun r t => r ++ t) s).data = s.data ++ (M.map String.data).flatten := by
    intro M
    induction M with
    | nil => intro s; simp
    | cons x xs ih =>
      intro s
      simp only [List.foldl_cons, List.map_cons, List.flatten_cons]
      rw [ih (s ++ x), strData_append, List.append_assoc]
  simp [String.join, aux L]

/-- The data of the lines of `content` are the `charLines` of its
data. -/
theorem strReadlines_data (content : String) :
    (strReadlines content).map String.data = charLines content.data := by
  unfold strReadlines
  rw [List.map_map]
  have hcomp : (String.data ∘ fun cs : List Char => (⟨cs⟩ : String)) = id := rfl
  rw [hcomp, List.map_id]
  rfl

/-- A list of lists flattens to the three pieces around any
contiguous slice. -/
theorem flatten_take_drop (M : List (List Char)) (a k : Nat) :
    M.flatten = (M.take a).flatten ++ ((M.drop a).take k).flatten
      ++ ((M.drop a).drop k).flatten := by
  conv_rhs => rw [← List.flatten_append, ← List.flatten_append]
  rw [List.append_assoc, List.take_append_drop, List.take_append_drop]

/-- Joining all lines of `content` restores `content`. -/
theorem strJoin_readlines (content : String) :
    (String.join (strReadlines content)).data = content.data := by
  rw [strJoin_data, strReadlines_data, charLines_join]

/-- A contiguous slice of the lines joins to a middle piece of the
whole join. -/
theorem joinSlice_middle (lines : List String) (a k : Nat) :
    ∃ x y, (String.join lines).data
      = x ++ (String.join ((lines.drop a).take k)).data ++ y := by
  refine ⟨(String.join (lines.take a)).data,
    (String.join ((lines.drop a).drop k)).data, ?_⟩
  rw [strJoin_data, strJoin_data, strJoin_data, strJoin_data,
    List.map_take, List.map_drop, List.map_take, List.map_drop]
  exact flatten_take_drop (lines.map String.data) a k

/-- A pattern absent from `content` is absent from every joined slice
of its lines. -/
theorem span_no_sub (content : String) (pat : List Char) (a k : Nat)
    (h : hasSub pat content.data = false) :
    hasSub pat (String.join (((strReadlines content).drop a).take k)).data = false := by
  cases hcase : hasSub pat (String.join (((strReadlines content).drop a).take k)).data with
  | false => rfl
  | true =>
    exfalso
    obtain ⟨x, y, hxy⟩ := joinSlice_middle (strReadlines content) a k
    rw [strJoin_readlines] at hxy
    have hext := hasSub_extend pat _ x y hcase
    rw [← hxy] at hext
    rw [hext] at h
    cases h

/-- A predicate holding somewhere makes `findFirstIdx` succeed. -/
theorem findFirstIdx_isSome (p : String → Bool) :
    ∀ ls : List String, ls.any p = true → ∃ a, findFirstIdx p ls = some a := by
  intro ls
  induction ls with
  | nil => intro h; cases h
  | cons l rest ih =>
    intro h
    by_cases hp : p l = true
    · exact ⟨0, by simp [findFirstIdx, hp]⟩
    · have hpl : p l = false := Bool.eq_false_iff.mpr hp
      have hrest : rest.any p = true := by
        simp only [List.any_cons, hpl, Bool.false_or] at h
        exact h
      obtain ⟨a, ha⟩ := ih hrest
      exact ⟨a + 1, by simp [findFirstIdx, hpl, ha]⟩

/-- Same for `findLastIdx`. -/
theorem findLastIdx_isSome (p : String → Bool) (ls : List String)
    (h : ls.any p = true) : ∃ b, findLastIdx p ls = some b := by
  have hrev : ls.reverse.any p = true := by simpa using h
  obtain ⟨i, hi⟩ := findFirstIdx_isSome p ls.reverse hrev
  exact ⟨ls.length - 1 - i, by simp [findLastIdx, hi]⟩

/-- A line containing the opening tag makes some line contain either
tag. -/
theorem any_tag_of_any_open (lines : List String)
    (h : lines.any (fun l => strHasSub l "<cih>") = true) :
    lines.any lineEitherTag = true := by
  rw [List.any_eq_true] at h ⊢
  obtain ⟨l, hl, hp⟩ := h
  exact ⟨l, hl, by simp [lineEitherTag, hp]⟩

/-- Core of C9's failure half, about `_get_cih` composed into
construction. -/
theorem cihxFail_aux
    (xmlP : String → Except PyError CihxDoc)
    (loadM : String → Except PyError (List NDArray))
    (content path : String)
    (hext : (splitext path).2 = ".cihx")
    (hparse : ∀ s, strHasSub s "</cih>" = false → xmlP s = .error .malformedHeader)
    (hopen : (strReadlines content).any (fun l => strHasSub l "<cih>") = true)
    (hclose : strHasSub content "</cih>" = false) :
    videoReaderInit xmlP loadM content path = .error .malformedHeader := by
  have hany := any_tag_of_any_open _ hopen
  obtain ⟨a, ha⟩ := findFirstIdx_isSome lineEitherTag _ hany
  obtain ⟨b, hb⟩ := findLastIdx_isSome lineEitherTag _ hany
  have hspan : extractSpan (strReadlines content)
      = some (joinSlice (strReadlines content) a b) := by
    simp [extractSpan, ha, hb]
  have hnosub : strHasSub (joinSlice (strReadlines content) a b) "</cih>" = false :=
    span_no_sub content _ a (b + 1 - a) hclose
  have hxml := hparse _ hnosub
  have hne : (splitext path).2 ≠ ".cih" := by rw [hext]; decide
  unfold videoReaderInit get_cih
  simp [hext, hne, hspan, hxml]

/-- `findFirstIdx` only depends on the predicate's values on the
list. -/
theorem findFirstIdx_ext (p q : String → Bool) :
    ∀ ls : List String, (∀ l ∈ ls, p l = q l) →
      findFirstIdx p ls = findFirstIdx q ls := by
  intro ls
  induction ls with
  | nil => intro _; rfl
  | cons l rest ih =>
    intro h
    have hl := h l (List.mem_cons_self _ _)
    have hrest : ∀ l' ∈ rest, p l' = q l' := by
      intro l' hl'
      exact h l' (List.mem_cons_of_mem _ hl')
    simp [findFirstIdx, hl, ih hrest]

/-- Disjunction with a predicate that is false before the first hit of
`p` does not change the first hit. -/
theorem findFirstIdx_or_congr (p q : String → Bool) :
    ∀ ls : List String,
      (∀ l ∈ ls.takeWhile (fun x => !p x), q l = false) →
      findFirstIdx (fun l => p l || q l) ls = findFirstIdx p ls := by
  intro ls
  induction ls with
  | nil => intro _; rfl
  | cons l rest ih =>
    intro h
    by_cases hp : p l = true
    · simp [findFirstIdx, hp]
    · have hpl : p l = false := Bool.eq_false_iff.mpr hp
      have htw : (l :: rest).takeWhile (fun x => !p x)
          = l :: rest.takeWhile (fun x => !p x) := by
        simp [List.takeWhile_cons, hpl]
      have hql : q l = false := h l (by rw [htw]; exact List.mem_cons_self _ _)
      have hrest : ∀ l' ∈ rest.takeWhile (fun x => !p x), q l' = false := by
        intro l' hl'
        exact h l' (by rw [htw]; exact List.mem_cons_of_mem _ hl')
      simp [findFirstIdx, hpl, hql, ih hrest]

/-- Core of C9's span half: when no closing tag precedes the first
opening tag and no opening tag follows the last closing tag, the span
the code extracts is exactly the claimed one (first opening-tag line
through last closing-tag line). -/
theorem spanClaim_aux (lines : List String)
    (h1 : ∀ l ∈ lines.takeWhile (fun x => !(strHasSub x "<cih>")),
      strHasSub l "</cih>" = false)
    (h2 : ∀ l ∈ lines.reverse.takeWhile (fun x => !(strHasSub x "</cih>")),
      strHasSub l "<cih>" = false) :
    extractSpan lines = claimSpan lines := by
  have hfirst : findFirstIdx lineEitherTag lines
      = findFirstIdx (fun l => strHasSub l "<cih>") lines := by
    have := findFirstIdx_or_congr (fun l => strHasSub l "<cih>")
      (fun l => strHasSub l "</cih>") lines h1
    simpa [lineEitherTag] using this
  have hlast : findFirstIdx lineEitherTag lines.reverse
      = findFirstIdx (fun l => strHasSub l "</cih>") lines.reverse := by
    have hswap : ∀ l ∈ lines.reverse,
        lineEitherTag l = (strHasSub l "</cih>" || strHasSub l "<cih>") := by
      intro l _
      simp [lineEitherTag, Bool.or_comm]
    rw [findFirstIdx_ext _ _ _ hswap]
    exact findFirstIdx_or_congr _ _ _ h2
  unfold extractSpan claimSpan findLastIdx
  rw [hfirst, hlast]

/-- C9: a `.cihx` header containing an opening root tag on some line
but no closing root tag anywhere fails construction with the
malformed-header error (the extracted span cannot contain the closing
tag, so the XML parse rejects it); and, for well-ordered inputs, the
extracted span is exactly the claimed one: from the first line
containing the opening root tag through the last line containing the
closing root tag. -/
theorem cihx_missing_close_tag :
    (∀ (xmlP : String → Except PyError CihxDoc)
       (loadM : String → Except PyError (List NDArray))
       (content path : String),
      (splitext path).2 = ".cihx" →
      (∀ s, strHasSub s "</cih>" = false → xmlP s = .error .malformedHeader) →
      (strReadlines content).any (fun l => strHasSub l "<cih>") = true →
      strHasSub content "</cih>" = false →
      videoReaderInit xmlP loadM content path = .error .malformedHeader) ∧
    (∀ lines : List String,
      (∀ l ∈ lines.takeWhile (fun x => !(strHasSub x "<cih>")),
        strHasSub l "</cih>" = false) →
      (∀ l ∈ lines.reverse.takeWhile (fun x => !(strHasSub x "</cih>")),
        strHasSub l "<cih>" = false) →
      extractSpan lines = claimSpan lines) :=
  ⟨cihxFail_aux, spanClaim_aux⟩

/-- Witness for C9: a concrete unterminated `.cihx` and a concrete
well-formed line list. -/
theorem cihx_missing_close_tag_witness :
    (videoReaderInit dummyXmlParse dummyLoadMraw
        "junk\n<cih>\n<fileInfo>\n" "rec.cihx" = .error .malformedHeader) ∧
    (extractSpan ["a\n", "<cih>\n", "x\n", "</cih>\n", "b\n"]
      = claimSpan ["a\n", "<cih>\n", "x\n", "</cih>\n", "b\n"]) :=
  ⟨cihx_missing_close_tag.1 dummyXmlParse dummyLoadMraw
      "junk\n<cih>\n<fileInfo>\n" "rec.cihx"
      (by decide) (fun _ _ => rfl) (by decide) (by decide),
   cihx_missing_close_tag.2 ["a\n", "<cih>\n", "x\n", "</cih>\n", "b\n"]
      (by decide) (by decide)⟩

end VideoReaderModel
